import Mathlib

/-!
Shallow embedding of the HTTP authentication engine of `src/HttpAuth.ts`
(the swiss-cheese repository). JavaScript strings are modelled as `List Char`
so that the index/substring manipulation of the source translates directly.
The MD5 collaborator is an external pure function (spec section 6) and is a
parameter `md5 : List Nat → List Char` of the digest computations; byte
buffers are `List Nat`.
-/

set_option maxRecDepth 10000

/-- JavaScript string, modelled as a list of characters. -/
abbrev Str := List Char

/-- Coerce a Lean string literal into the `Str` model. -/
def str (s : String) : Str := s.toList

/-- Model of `String.prototype.indexOf` for a single character: index of the first
occurrence, `none` standing for the JavaScript result `-1`. -/
def indexOfChar : Str → Char → Option Nat
  | [], _ => none
  | x :: xs, c => if x = c then some 0 else (indexOfChar xs c).map (· + 1)

/-- Model of `String.prototype.lastIndexOf` for a single character. -/
def lastIndexOfChar (s : Str) (c : Char) : Option Nat :=
  (indexOfChar s.reverse c).map (fun i => s.length - 1 - i)

/-- Does `s` start with `p`? (`String.prototype.startsWith`). -/
def startsWithStr : Str → Str → Bool
  | _, [] => true
  | [], _ :: _ => false
  | h :: hs, n :: ns => h = n && startsWithStr hs ns

/-- Does `needle` occur as a contiguous substring of `hay`?
(`String.prototype.includes`). -/
def containsStr : Str → Str → Bool
  | [], needle => needle.isEmpty
  | h :: t, needle => startsWithStr (h :: t) needle || containsStr t needle

/-- Model of `String.prototype.split` on a one-character separator. As in JavaScript,
the result is never empty: splitting the empty string yields `[""]`. -/
def splitOn (sep : Char) : Str → List Str
  | [] => [[]]
  | c :: rest =>
    if c = sep then [] :: splitOn sep rest
    else
      match splitOn sep rest with
      | h :: t => (c :: h) :: t
      | [] => [[c]]

/-- The hexadecimal digit character used by `Number.prototype.toString(16)`:
lowercase, `0`-`9` then `a`-`f`. -/
def hexDigitChar (m : Nat) : Char :=
  if m < 10 then Char.ofNat (48 + m) else Char.ofNat (87 + m)

/-- Hex digits of `n`, least significant first. The first argument is fuel;
`n + 1` units always suffice because the argument is divided by 16 at each
step. -/
def toHexRevFuel : Nat → Nat → List Char
  | 0, _ => []
  | fuel + 1, n =>
    if n < 16 then [hexDigitChar n]
    else hexDigitChar (n % 16) :: toHexRevFuel fuel (n / 16)

/-- Model of `n.toString(16)` of JavaScript for a natural number: lowercase hex digits,
most significant first, no padding. -/
def toString16 (n : Nat) : Str := (toHexRevFuel (n + 1) n).reverse

/-- Model of `toPaddedHexString(n, padTo)` from `src/HttpAuth.ts`:
`'0'.repeat(Math.max(0, padTo - hexStr.length)) + hexStr`. Natural-number
subtraction supplies the `Math.max(0, _)`. -/
def toPaddedHexString (n padTo : Nat) : Str :=
  let hexStr := toString16 n
  List.replicate (padTo - hexStr.length) '0' ++ hexStr

/-- Numeric value of one hexadecimal digit character. -/
def hexDigitVal (c : Char) : Option Nat :=
  if '0' ≤ c ∧ c ≤ '9' then some (c.toNat - 48)
  else if 'a' ≤ c ∧ c ≤ 'f' then some (c.toNat - 87)
  else if 'A' ≤ c ∧ c ≤ 'F' then some (c.toNat - 55)
  else none

/-- Accumulator loop of the strict hexadecimal reader. -/
def fromHexLoop : Nat → Str → Option Nat
  | acc, [] => some acc
  | acc, c :: cs =>
    match hexDigitVal c with
    | some v => fromHexLoop (16 * acc + v) cs
    | none => none

/-- Read a string back as a hexadecimal numeral (all characters must be hex
digits, and the string must be non-empty). -/
def fromHex (s : Str) : Option Nat :=
  match s with
  | [] => none
  | _ => fromHexLoop 0 s

/-- Is `c` one of the characters `0`-`9`, `a`-`f`? -/
def isLowerHexDigit (c : Char) : Bool :=
  ('0' ≤ c && c ≤ '9') || ('a' ≤ c && c ≤ 'f')

theorem hexDigitVal_hexDigitChar : ∀ m, m < 16 → hexDigitVal (hexDigitChar m) = some m := by
  decide

theorem isLowerHexDigit_hexDigitChar : ∀ m, m < 16 → isLowerHexDigit (hexDigitChar m) = true := by
  decide

theorem fromHexLoop_append (xs : Str) : ∀ (acc : Nat) (ys : Str),
    fromHexLoop acc (xs ++ ys) =
      match fromHexLoop acc xs with
      | some a => fromHexLoop a ys
      | none => none := by
  induction xs with
  | nil => intro acc ys; simp [fromHexLoop]
  | cons c cs ih =>
    intro acc ys
    simp only [List.cons_append, fromHexLoop]
    cases hexDigitVal c with
    | none => simp
    | some v => simp [ih]

theorem toHexRevFuel_ne_nil : ∀ (fuel n : Nat), n < fuel → toHexRevFuel fuel n ≠ [] := by
  intro fuel n h
  cases fuel with
  | zero => omega
  | succ f =>
    simp only [toHexRevFuel]
    by_cases h16 : n < 16 <;> simp [h16]

theorem fromHexLoop_toHexRevFuel : ∀ (fuel n acc : Nat), n < fuel →
    fromHexLoop acc (toHexRevFuel fuel n).reverse =
      some (acc * 16 ^ (toHexRevFuel fuel n).length + n) := by
  intro fuel
  induction fuel with
  | zero => intro n acc h; omega
  | succ f ih =>
    intro n acc h
    by_cases h16 : n < 16
    · simp only [toHexRevFuel, if_pos h16, List.reverse_singleton, fromHexLoop,
        hexDigitVal_hexDigitChar n h16, List.length_singleton]
      simp [pow_one, Nat.mul_comm]
    · have hdiv : n / 16 < f := by
        have h1 : n / 16 < n := Nat.div_lt_self (by omega) (by omega)
        omega
      simp only [toHexRevFuel, if_neg h16, List.reverse_cons, fromHexLoop_append,
        ih (n / 16) acc hdiv]
      have hmod : n % 16 < 16 := Nat.mod_lt _ (by omega)
      simp only [fromHexLoop, hexDigitVal_hexDigitChar (n % 16) hmod,
        List.length_reverse, List.length_cons]
      congr 1
      have h1 : 16 * (n / 16) + n % 16 = n := Nat.div_add_mod n 16
      have h2 : acc * 16 ^ ((toHexRevFuel f (n / 16)).length + 1)
          = 16 * (acc * 16 ^ (toHexRevFuel f (n / 16)).length) := by ring
      omega

theorem fromHexLoop_zeros : ∀ (k : Nat) (t : Str),
    fromHexLoop 0 (List.replicate k '0' ++ t) = fromHexLoop 0 t := by
  intro k
  induction k with
  | zero => intro t; simp
  | succ m ih =>
    intro t
    have hv : hexDigitVal '0' = some 0 := by decide
    simp only [List.replicate_succ, List.cons_append, fromHexLoop, hv]
    simpa using ih t

theorem toString16_length_pos (n : Nat) : 0 < (toString16 n).length := by
  have h := toHexRevFuel_ne_nil (n + 1) n (by omega)
  simp only [toString16, List.length_reverse]
  exact List.length_pos.mpr h

theorem fromHex_toString16 (n : Nat) : fromHex (toString16 n) = some n := by
  have hne : toString16 n ≠ [] := by
    have := toString16_length_pos n
    exact List.length_pos.mp this
  have hloop := fromHexLoop_toHexRevFuel (n + 1) n 0 (by omega)
  cases hs : toString16 n with
  | nil => exact absurd hs hne
  | cons c cs =>
    have : fromHexLoop 0 (toString16 n) = some n := by
      simpa [toString16, Nat.zero_mul] using hloop
    simpa [fromHex, hs] using this.symm.trans (by rw [hs]) |>.symm

/-- C7: for every nonce count `n` in `[0, 0xFFFFFFFF]`,
`toPaddedHexString n 8` has length at least 8 and reads back, as a
hexadecimal numeral, to exactly `n`. -/
theorem toPaddedHexString_roundtrip (n : Nat) (h : n ≤ 4294967295) :
    8 ≤ (toPaddedHexString n 8).length ∧ fromHex (toPaddedHexString n 8) = some n := by
  constructor
  · have hpos := toString16_length_pos n
    simp only [toPaddedHexString, List.length_append, List.length_replicate]
    omega
  · have hpos := toString16_length_pos n
    have hne : toPaddedHexString n 8 ≠ [] := by
      intro hnil
      have : (toPaddedHexString n 8).length = 0 := by rw [hnil]; rfl
      simp only [toPaddedHexString, List.length_append, List.length_replicate] at this
      omega
    have hloop : fromHexLoop 0 (toPaddedHexString n 8) = some n := by
      have h1 : fromHexLoop 0 (toString16 n) = some n := by
        have := fromHexLoop_toHexRevFuel (n + 1) n 0 (by omega)
        simpa [toString16, Nat.zero_mul] using this
      simpa [toPaddedHexString, fromHexLoop_zeros] using h1
    cases hs : toPaddedHexString n 8 with
    | nil => exact absurd hs hne
    | cons c cs => rw [← hs]; simp only [fromHex]; rw [hs] at hloop ⊢; exact hloop

/-- Witness for C7 at the concrete nonce count `0xdeadbeef`. -/
theorem toPaddedHexString_roundtrip_witness :
    8 ≤ (toPaddedHexString 3735928559 8).length ∧
      fromHex (toPaddedHexString 3735928559 8) = some 3735928559 :=
  toPaddedHexString_roundtrip 3735928559 (by decide)

/-! ## Base64 and UTF-8 (collaborators of `createBasicAuthenticationString`)

`Buffer.from(string)` encodes the string as UTF-8 bytes and
`buffer.toString(base64)` is the standard base64 encoding with `=` padding. -/

/-- UTF-8 encoding of a single character. -/
def utf8EncodeChar (c : Char) : List Nat :=
  let n := c.toNat
  if n < 128 then [n]
  else if n < 2048 then [192 + n / 64, 128 + n % 64]
  else if n < 65536 then [224 + n / 4096, 128 + n / 64 % 64, 128 + n % 64]
  else [240 + n / 262144, 128 + n / 4096 % 64, 128 + n / 64 % 64, 128 + n % 64]

/-- UTF-8 encoding of a string (`Buffer.from(s)`). -/
def utf8Encode (s : Str) : List Nat := s.flatMap utf8EncodeChar

/-- The base64 alphabet. -/
def base64Alphabet : Str :=
  str "ABCDEFGHIJKLMNOPQRSTUVWXYZabcdefghijklmnopqrstuvwxyz0123456789+/"

/-- Character of a six-bit group. -/
def b64Char (n : Nat) : Char := base64Alphabet.getD n '?'

/-- Standard base64 encoding of a byte sequence, with `=` padding
(`buffer.toString(base64)`). -/
def base64Encode : List Nat → Str
  | [] => []
  | [a] => [b64Char (a / 4), b64Char (a % 4 * 16), '=', '=']
  | [a, b] => [b64Char (a / 4), b64Char (a % 4 * 16 + b / 16), b64Char (b % 16 * 4), '=']
  | a :: b :: c :: rest =>
    b64Char (a / 4) :: b64Char (a % 4 * 16 + b / 16) ::
      b64Char (b % 16 * 4 + c / 64) :: b64Char (c % 64) :: base64Encode rest

/-- Model of `createBasicAuthenticationString` from `src/HttpAuth.ts`:
`Basic + base64(username + colon + password)`, with no escaping of the
colon inside username or password. -/
def createBasicAuthenticationString (username password : Str) : Str :=
  str "Basic " ++ base64Encode (utf8Encode (username ++ [':'] ++ password))

/-- C8: the Basic encoder returns `Basic ` followed by the base64 encoding of
`username:password` with no escaping of the colon, and on the RFC 2617
example inputs `Aladdin` / `open sesame` it yields exactly
`Basic QWxhZGRpbjpvcGVuIHNlc2FtZQ==`. -/
theorem createBasicAuthenticationString_spec :
    (∀ username password : Str,
        createBasicAuthenticationString username password =
          str "Basic " ++ base64Encode (utf8Encode (username ++ [':'] ++ password))) ∧
      createBasicAuthenticationString (str "Aladdin") (str "open sesame") =
        str "Basic QWxhZGRpbjpvcGVuIHNlc2FtZQ==" := by
  refine ⟨fun _ _ => rfl, ?_⟩
  decide

/-! ## Challenge parser (`parseWwwAuthenticateHeader`)

A parsed challenge is the JavaScript object `authInfo`: a string-keyed map in
insertion order, in which the scheme is stored under the key `authType` just
as the source stores it as a property next to the attribute keys. Updating an
existing key keeps its position, as JavaScript property update does. -/

/-- A parsed challenge: key/value pairs in insertion order. -/
abbrev Attrs := List (Str × Str)

/-- JavaScript object property read: `obj[k]`, `none` for `undefined`. -/
def getAttr {α : Type} : List (Str × α) → Str → Option α
  | [], _ => none
  | (k, v) :: rest, key => if k = key then some v else getAttr rest key

/-- JavaScript object property write `obj[k] = v`: overwrite in place, or
append a new key at the end. -/
def setAttr {α : Type} : List (Str × α) → Str → α → List (Str × α)
  | [], key, v => [(key, v)]
  | (k, w) :: rest, key, v =>
    if k = key then (key, v) :: rest else (k, w) :: setAttr rest key v

/-- Interpolation of a possibly-undefined JavaScript value into a template
string: `undefined` renders as the text `undefined`. -/
def jsStr (o : Option Str) : Str := o.getD (str "undefined")

/-- Outcomes of `parseWwwAuthenticateHeader` when it throws. -/
inductive ParseErr where
  /-- Model of `Could not parse WWW-Authenticate header ...` carrying the original
  string (line 289 of the source). -/
  | parseError (original : Str)
  /-- The `TypeError` raised by reading `matches.length` when
  `headerValue.match(...)` returned `null` (line 297 of the source). -/
  | typeErrorNullMatch
  /-- A `SyntaxError` propagating out of `JSON.parse` (line 304). -/
  | jsonError (s : Str)
deriving DecidableEq, Repr

deriving instance DecidableEq for Except

/-- Model of `String.prototype.trimLeft`: drop leading whitespace. Only the ASCII
whitespace characters are modelled; the inputs of interest contain spaces. -/
def trimLeft (s : Str) : Str :=
  s.dropWhile fun c => c = ' ' ∨ c = '\t' ∨ c = '\n' ∨ c = '\r' ∨ c = '\x0b' ∨ c = '\x0c'

/-- The scheme-switch test of the parser loop: when a space occurs strictly
before the next `=`, the text before the space is a scheme name and the rest
follows it (lines 279-286 of the source). -/
def schemeSplit (s : Str) : Option (Str × Str) :=
  match indexOfChar s ' ', indexOfChar s '=' with
  | some sp, some eq => if sp < eq then some (s.take sp, s.drop (sp + 1)) else none
  | _, _ => none

/-- The optional `,? *` tail of the quoted-value regular expression. -/
def matchCommaSpaces : Str → Str
  | ',' :: t => ',' :: t.takeWhile (· = ' ')
  | t => t.takeWhile (· = ' ')

/-- First match of the regular expression `/"([^dq]|\\dq)*",? */` (dq being
the double-quote character) in a string that starts with a double quote,
mirroring the JavaScript engine on this pattern: the repetition consumes
characters up to the next double quote (at a double quote both alternatives
of the group fail, so the engine closes the match there), then the optional
comma and spaces are taken. If the rest of the string holds no double quote
at all there is no match and `null` is returned. -/
def jsMatchQuoted : Str → Option Str
  | '"' :: rest =>
    match indexOfChar rest '"' with
    | none => none
    | some j => some ('"' :: rest.take j ++ '"' :: matchCommaSpaces (rest.drop (j + 1)))
  | _ => none

/-- JSON string-body unescaping, as `JSON.parse` performs it between the
outer quotes: standard escapes, `\u` with four hex digits, and rejection of
raw control characters. -/
def jsonUnescape : Str → Option Str
  | [] => some []
  | '\\' :: rest =>
    match rest with
    | '"' :: t => (jsonUnescape t).map ('"' :: ·)
    | '\\' :: t => (jsonUnescape t).map ('\\' :: ·)
    | '/' :: t => (jsonUnescape t).map ('/' :: ·)
    | 'b' :: t => (jsonUnescape t).map (Char.ofNat 8 :: ·)
    | 'f' :: t => (jsonUnescape t).map (Char.ofNat 12 :: ·)
    | 'n' :: t => (jsonUnescape t).map ('\n' :: ·)
    | 'r' :: t => (jsonUnescape t).map (Char.ofNat 13 :: ·)
    | 't' :: t => (jsonUnescape t).map ('\t' :: ·)
    | 'u' :: h1 :: h2 :: h3 :: h4 :: t =>
      match hexDigitVal h1, hexDigitVal h2, hexDigitVal h3, hexDigitVal h4 with
      | some v1, some v2, some v3, some v4 =>
        (jsonUnescape t).map (Char.ofNat (4096 * v1 + 256 * v2 + 16 * v3 + v4) :: ·)
      | _, _, _, _ => none
    | _ => none
  | c :: rest => if c.toNat < 32 then none else (jsonUnescape rest).map (c :: ·)

/-- Model of `JSON.parse` applied to a double-quoted string literal (the only use the
parser makes of it; the callers always pass a literal whose interior holds no
double quote). -/
def jsonParseString (s : Str) : Option Str :=
  match s with
  | '"' :: rest =>
    if rest ≠ [] ∧ rest.getLast? = some '"' then jsonUnescape rest.dropLast else none
  | _ => none

/-- The `while` loop of `parseWwwAuthenticateHeader` (lines 275-317). The
fuel argument bounds the number of iterations; every iteration strictly
shortens the remaining string, so fuel equal to the initial length always
suffices and the fuel-exhausted branch is unreachable from the entry point.
-/
def parseLoop (original : Str) : Nat → Str → Attrs → Except ParseErr Attrs
  | _, [], acc => .ok acc
  | 0, _ :: _, acc => .ok acc
  | fuel + 1, c0 :: cs0, acc =>
    let s := c0 :: cs0
    match schemeSplit s with
    | some (ty, rest) =>
      -- next part is a scheme name: record it (lower-cased) and continue
      parseLoop original fuel rest (setAttr acc (str "authType") (ty.map Char.toLower))
    | none =>
      match indexOfChar s '=' with
      | none => .error (.parseError original)
      | some eq =>
        let key := s.take eq
        let rest := s.drop (eq + 1)
        match rest with
        | '"' :: _ =>
          match jsMatchQuoted rest with
          | none => .error .typeErrorNullMatch
          | some m =>
            -- the `matches.length === 0` test of the source is dead code:
            -- a non-null match array always has at least one element
            let stringValue :=
              match lastIndexOfChar m '"' with
              | some i => m.take (i + 1)
              | none => []
            match jsonParseString stringValue with
            | none => .error (.jsonError stringValue)
            | some v => parseLoop original fuel (rest.drop m.length) (setAttr acc key v)
        | _ =>
          let endOfValue := (indexOfChar rest ',').getD rest.length
          parseLoop original fuel (trimLeft (rest.drop (endOfValue + 1)))
            (setAttr acc key (rest.take endOfValue))

/-- Model of `parseWwwAuthenticateHeader` from `src/HttpAuth.ts`. The `isString`
precondition is enforced by the type of the argument. -/
def parseWwwAuthenticateHeader (headerValue : Str) : Except ParseErr Attrs :=
  parseLoop headerValue headerValue.length headerValue []

example :
    parseWwwAuthenticateHeader (str "Digest realm=\"r\", nonce=\"abc\", qop=\"auth\"") =
      .ok [(str "authType", str "digest"), (str "realm", str "r"),
        (str "nonce", str "abc"), (str "qop", str "auth")] := by decide

example :
    parseWwwAuthenticateHeader (str "NTLM realm=x") =
      .ok [(str "authType", str "ntlm"), (str "realm", str "x")] := by decide

example :
    parseWwwAuthenticateHeader (str "Digest realm=\"\", nonce=\"\"") =
      .ok [(str "authType", str "digest"), (str "realm", []), (str "nonce", [])] := by decide

example :
    parseWwwAuthenticateHeader (str "Digest realm=\"abc") = .error .typeErrorNullMatch := by
  decide

example : parseWwwAuthenticateHeader (str "garbage") = .error (.parseError (str "garbage")) := by
  decide

/-! ## Digest response calculator

`createDigestResponse` and `createDigestAuthenticationString` of the source,
parameterised over the external MD5 collaborator
`md5 : bytes -> lowercase hex string` (spec section 6). -/

/-- Errors thrown by the authentication engine. -/
inductive AuthErr where
  /-- A parse failure propagating out of `parseWwwAuthenticateHeader`. -/
  | parseFail (e : ParseErr)
  /-- Model of `No supported authorization types in ...` (line 109). -/
  | noSupportedAuthTypes (types : List Str)
  /-- Model of `No supported QOP type in ...` (line 185). -/
  | noSupportedQop (qops : List Str)
  /-- Model of `nonce must be set` (line 247). -/
  | nonceMustBeSet
  /-- Model of `cnonce must be set` (line 249). -/
  | cnonceMustBeSet
  /-- The precondition failure of `getAuthorizationHeader` (line 54). -/
  | noAuthInfoSet
  /-- Model of `Internal error: unknown auth type ...` (line 70). -/
  | unknownAuthType (t : Str)
deriving DecidableEq, Repr

/-- JSON escaping of one character inside `JSON.stringify` of a string. -/
def jsonEscapeChar (c : Char) : Str :=
  if c = '"' then ['\\', '"']
  else if c = '\\' then ['\\', '\\']
  else if c.toNat < 32 then
    '\\' :: 'u' :: toPaddedHexString c.toNat 4
  else [c]

/-- Model of `JSON.stringify` of a string. -/
def jsonQuote (s : Str) : Str := '"' :: s.flatMap jsonEscapeChar ++ ['"']

/-- Comma-join a list of strings. -/
def commaJoin : List Str → Str
  | [] => []
  | [x] => x
  | x :: y :: rest => x ++ [','] ++ commaJoin (y :: rest)

/-- Model of `JSON.stringify` of an array of strings. -/
def jsonArr (l : List Str) : Str := '[' :: commaJoin (l.map jsonQuote) ++ [']']

/-- The message text of the thrown errors, as the source builds them. -/
def errMessage : AuthErr → Str
  | .parseFail (.parseError orig) =>
    str "Could not parse WWW-Authenticate header \"" ++ orig ++ str "\""
  | .parseFail .typeErrorNullMatch => str "TypeError: reading length of null"
  | .parseFail (.jsonError s) => str "SyntaxError: JSON.parse " ++ s
  | .noSupportedAuthTypes types => str "No supported authorization types in " ++ jsonArr types
  | .noSupportedQop qops => str "No supported QOP type in " ++ jsonArr qops
  | .nonceMustBeSet => str "nonce must be set"
  | .cnonceMustBeSet => str "cnonce must be set"
  | .noAuthInfoSet =>
    str "Precondition failed. Call updateWwwAuthenticate() first with the value of the WWW-Authenticate header."
  | .unknownAuthType t => str "Internal error: unknown auth type \"" ++ t ++ str "\""

/-- Hash a string with the MD5 collaborator: `crypto.update` encodes the
string as UTF-8 bytes. -/
def md5str (md5 : List Nat → Str) (s : Str) : Str := md5 (utf8Encode s)

/-- HA1 (lines 228-235 of the source). For `MD5-sess` the source assigns the
bare concatenation, without the outer hash; any other explicit algorithm
leaves `ha1` undefined, which renders as the text `undefined` in the later
template string. -/
def digestHA1 (md5 : List Nat → Str) (authInfo : Attrs) (username password : Str)
    (clientNonce : Option Str) : Str :=
  let a1 := username ++ str ":" ++ jsStr (getAttr authInfo (str "realm")) ++ str ":" ++ password
  match getAttr authInfo (str "algorithm") with
  | none => md5str md5 a1
  | some alg =>
    if alg = str "MD5" then md5str md5 a1
    else if alg = str "MD5-sess" then
      md5str md5 a1 ++ str ":" ++ jsStr (getAttr authInfo (str "nonce")) ++ str ":" ++
        jsStr clientNonce
    else str "undefined"

/-- HA2 (lines 237-243 of the source); a qop other than null, `auth` and
`auth-int` leaves `ha2` undefined. -/
def digestHA2 (md5 : List Nat → Str) (method uri : Str) (qopType : Option Str)
    (bodyBytes : List Nat) : Str :=
  if qopType = none ∨ qopType = some (str "auth") then
    md5str md5 (method ++ str ":" ++ uri)
  else if qopType = some (str "auth-int") then
    md5str md5 (method ++ str ":" ++ uri ++ str ":" ++ md5 bodyBytes)
  else str "undefined"

/-- Model of `createDigestResponse` from `src/HttpAuth.ts` (lines 211-259). -/
def createDigestResponse (md5 : List Nat → Str) (authInfo : Attrs)
    (username password method uri : Str) (clientNonce : Option Str) (nonceCount : Nat)
    (qopType : Option Str) (body : Option (List Nat)) : Except AuthErr Str :=
  let bodyBytes := body.getD []
  let ha1 := digestHA1 md5 authInfo username password clientNonce
  let ha2 := digestHA2 md5 method uri qopType bodyBytes
  if qopType = some (str "auth") ∨ qopType = some (str "auth-int") then
    match getAttr authInfo (str "nonce") with
    | none => .error .nonceMustBeSet
    | some nonce =>
      match clientNonce with
      | none => .error .cnonceMustBeSet
      | some cnonce =>
        .ok (md5str md5 (ha1 ++ str ":" ++ nonce ++ str ":" ++
          toPaddedHexString nonceCount 8 ++ str ":" ++ cnonce ++ str ":" ++
          jsStr qopType ++ str ":" ++ ha2))
  else
    .ok (md5str md5
      (ha1 ++ str ":" ++ jsStr (getAttr authInfo (str "nonce")) ++ str ":" ++ ha2))

/-- QOP resolution (lines 176-186 of the source): the offered list is the
comma-split of the `qop` attribute, `auth-int` wins over `auth`, an empty
list (no attribute) resolves to null, and a non-empty list without a
supported token throws. -/
def resolveQop (qopAttr : Option Str) : Except AuthErr (Option Str) :=
  let qops := match qopAttr with
    | some q => splitOn ',' q
    | none => []
  if str "auth-int" ∈ qops then .ok (some (str "auth-int"))
  else if str "auth" ∈ qops then .ok (some (str "auth"))
  else if qops.length = 0 then .ok none
  else .error (.noSupportedQop qops)

/-- The fixed leading part of the produced Digest header (line 198). -/
def digestHeaderBase (authInfo : Attrs) (username uri response : Str) : Str :=
  str "Digest username=\"" ++ username ++ str "\", realm=\"" ++
    jsStr (getAttr authInfo (str "realm")) ++ str "\", nonce=\"" ++
    jsStr (getAttr authInfo (str "nonce")) ++ str "\", uri=\"" ++ uri ++
    str "\", response=\"" ++ response ++ str "\""

/-- The optional part naming the server token echoed back when present on
the challenge (lines 200-202). -/
def opqSuffix (authInfo : Attrs) : Str :=
  match getAttr authInfo (str "opaque") with
  | some o => str ", opaque=\"" ++ o ++ str "\""
  | none => []

/-- The qop / nonce-count / cnonce triplet, appended only when a qop was
resolved (lines 204-206). -/
def qopSuffix (qopType : Option Str) (nonceCount : Nat) (clientNonce : Option Str) : Str :=
  match qopType with
  | some q =>
    str ", qop=" ++ q ++ str ", nc=" ++ toPaddedHexString nonceCount 8 ++
      str ", cnonce=\"" ++ jsStr clientNonce ++ str "\""
  | none => []

/-- Model of `createDigestAuthenticationString` from `src/HttpAuth.ts`
(lines 166-209). -/
def createDigestAuthenticationString (md5 : List Nat → Str) (authInfo : Attrs)
    (username password method uri : Str) (clientNonce : Option Str) (nonceCount : Nat)
    (body : Option (List Nat)) : Except AuthErr Str :=
  match resolveQop (getAttr authInfo (str "qop")) with
  | .error e => .error e
  | .ok qopType =>
    match createDigestResponse md5 authInfo username password method uri clientNonce
        nonceCount qopType body with
    | .error e => .error e
    | .ok response =>
      .ok (digestHeaderBase authInfo username uri response ++ opqSuffix authInfo ++
        qopSuffix qopType nonceCount clientNonce)

/-- A concrete stand-in for the MD5 collaborator used by the closed
evaluation theorems: the hex rendering of the byte count of the input. -/
def md5model (bs : List Nat) : Str := toString16 bs.length

/-! ## Authenticator session (`HttpAuthenticator`)

Mutable state is passed explicitly: each method returns its result together
with the post-state, and the post-state on a thrown error is the state the
JavaScript object holds after the throw. The random client-nonce generator
is an external collaborator, so operations that draw from it take the fresh
value as an argument. -/

/-- The fields of the `HttpAuthenticator` class. -/
structure HttpAuthenticator where
  nonceCount : Nat
  authInfo : Option Attrs
  username : Option Str
  password : Option Str
  clientNonce : Str
deriving DecidableEq, Repr

/-- The constructor: `nonceCount` starts at 1 and the client nonce is drawn
from the random collaborator. -/
def initAuthenticator (freshNonce : Str) : HttpAuthenticator :=
  { nonceCount := 1, authInfo := none, username := none, password := none,
    clientNonce := freshNonce }

/-- Model of `setCredentials`. -/
def setCredentials (a : HttpAuthenticator) (username password : Str) : HttpAuthenticator :=
  { a with username := some username, password := some password }

/-- Model of `isValid`. -/
def isValid (a : HttpAuthenticator) : Bool :=
  a.authInfo.isSome && a.username.isSome && a.password.isSome

/-- The loop of `setWwwAuthenticate` (lines 84-92): parse every header value
in order and key the results by their `authType`; a later challenge of the
same scheme overwrites the earlier one. A scalar argument behaves as a
one-element list. -/
def parseAllLoop (acc : List (Str × Attrs)) :
    List Str → Except ParseErr (List (Str × Attrs))
  | [] => .ok acc
  | h :: t =>
    match parseWwwAuthenticateHeader h with
    | .error e => .error e
    | .ok ai => parseAllLoop (setAttr acc (jsStr (getAttr ai (str "authType"))) ai) t

/-- Parse a list of `WWW-Authenticate` values into the scheme-keyed map. -/
def parseAll (headerValues : List Str) : Except ParseErr (List (Str × Attrs)) :=
  parseAllLoop [] headerValues

/-- Scheme selection (lines 94-110): prefer digest, then basic, otherwise
throw listing every offered scheme name in insertion order. -/
def selectAuthInfo (authInfos : List (Str × Attrs)) : Except AuthErr Attrs :=
  match getAttr authInfos (str "digest") with
  | some d => .ok d
  | none =>
    match getAttr authInfos (str "basic") with
    | some b => .ok b
    | none => .error (.noSupportedAuthTypes (authInfos.map Prod.fst))

/-- Model of `setWwwAuthenticate` (lines 78-111). The nonce count and client nonce
are reset before parsing, so they remain reset when a later step throws,
while `authInfo` is only written on success. -/
def setWwwAuthenticate (a : HttpAuthenticator) (headerValues : List Str)
    (freshNonce : Str) : Except AuthErr Unit × HttpAuthenticator :=
  let a1 := { a with nonceCount := 1, clientNonce := freshNonce }
  match parseAll headerValues with
  | .error e => (.error (.parseFail e), a1)
  | .ok authInfos =>
    match selectAuthInfo authInfos with
    | .ok chosen => (.ok (), { a1 with authInfo := some chosen })
    | .error e => (.error e, a1)

/-- Model of `getAuthorizationHeader` (lines 52-72). In the digest branch the source
passes `this.nonceCount++` as an argument, so the counter is incremented as
soon as the digest branch is entered, whether or not the computation then
throws. -/
def getAuthorizationHeader (md5 : List Nat → Str) (a : HttpAuthenticator)
    (method uri : Str) (body : Option (List Nat)) :
    Except AuthErr Str × HttpAuthenticator :=
  match a.authInfo with
  | none => (.error .noAuthInfoSet, a)
  | some ai =>
    if getAttr ai (str "authType") = some (str "digest") then
      (createDigestAuthenticationString md5 ai (jsStr a.username) (jsStr a.password)
          method uri (some a.clientNonce) a.nonceCount body,
        { a with nonceCount := a.nonceCount + 1 })
    else if getAttr ai (str "authType") = some (str "basic") then
      (.ok (createBasicAuthenticationString (jsStr a.username) (jsStr a.password)), a)
    else
      (.error (.unknownAuthType (jsStr (getAttr ai (str "authType")))), a)

/-- Is the outcome a produced value rather than a thrown error? -/
def isOkE {ε α : Type} : Except ε α → Bool
  | .ok _ => true
  | .error _ => false

/-- The produced header string of an outcome, the empty string on error. -/
def okStr {ε : Type} : Except ε Str → Str
  | .ok s => s
  | .error _ => []

/-! ## Supporting lemmas -/

theorem toHexRevFuel_lower : ∀ (fuel n : Nat) (c : Char),
    c ∈ toHexRevFuel fuel n → isLowerHexDigit c = true := by
  intro fuel
  induction fuel with
  | zero => intro n c h; simp [toHexRevFuel] at h
  | succ f ih =>
    intro n c h
    by_cases h16 : n < 16
    · simp only [toHexRevFuel, if_pos h16, List.mem_singleton] at h
      exact h ▸ isLowerHexDigit_hexDigitChar n h16
    · simp only [toHexRevFuel, if_neg h16, List.mem_cons] at h
      rcases h with h | h
      · exact h ▸ isLowerHexDigit_hexDigitChar (n % 16) (Nat.mod_lt _ (by omega))
      · exact ih (n / 16) c h

theorem splitOn_ne_nil (sep : Char) (s : Str) : splitOn sep s ≠ [] := by
  cases s with
  | nil => simp [splitOn]
  | cons c rest =>
    simp only [splitOn]
    by_cases h : c = sep
    · simp [h]
    · simp only [if_neg h]
      cases splitOn sep rest <;> simp

theorem indexOfChar_eq_none (c : Char) : ∀ l : Str, c ∉ l → indexOfChar l c = none := by
  intro l
  induction l with
  | nil => intro _; rfl
  | cons x xs ih =>
    intro h
    have hx : ¬x = c := fun hc => h (hc ▸ List.mem_cons_self x xs)
    have hxs : c ∉ xs := fun hc => h (List.mem_cons_of_mem x hc)
    simp [indexOfChar, hx, ih hxs]

/-! ## The claims -/

/-- C1 (code bug exhibit). The claim says that for `MD5-sess` an outer MD5
is applied to `MD5(username:realm:password) : nonce : clientNonce`; the code
instead uses that concatenation itself as HA1, without the outer hash. At
the concrete challenge with algorithm `MD5-sess`, realm `r`, nonce `n`,
credentials `u`/`p`, client nonce `c`, and with a concrete hash collaborator,
HA1 is the bare concatenation and differs from the claimed value. The
unset-algorithm half of the claim does hold at the same inputs. -/
theorem digestHA1_md5sess_missing_outer_hash :
    digestHA1 md5model
        [(str "algorithm", str "MD5-sess"), (str "realm", str "r"), (str "nonce", str "n")]
        (str "u") (str "p") (some (str "c"))
      = md5str md5model (str "u:r:p") ++ str ":n:c" ∧
    digestHA1 md5model
        [(str "algorithm", str "MD5-sess"), (str "realm", str "r"), (str "nonce", str "n")]
        (str "u") (str "p") (some (str "c"))
      ≠ md5str md5model (md5str md5model (str "u:r:p") ++ str ":n:c") ∧
    digestHA1 md5model [(str "realm", str "r"), (str "nonce", str "n")]
        (str "u") (str "p") (some (str "c"))
      = md5str md5model (str "u:r:p") := by
  refine ⟨by decide, by decide, by decide⟩

/-- The digest challenge of the C2 counterexample: both realm and nonce are
present but empty. -/
def c2Hdr : Str := str "Digest realm=\"\", nonce=\"\""

/-- The session state after installing the C2 challenge. -/
def c2S : HttpAuthenticator :=
  (setWwwAuthenticate (setCredentials (initAuthenticator (str "n")) (str "u") (str "p"))
    [c2Hdr] (str "f")).2

/-- C2 counterexample: a digest challenge whose realm and nonce are both
empty parses, is accepted by `setWwwAuthenticate` without an error, and is
then used to build an authorization header — contradicting the claim that
such a challenge is rejected. -/
theorem emptyRealmNonce_accepted :
    parseWwwAuthenticateHeader c2Hdr =
      .ok [(str "authType", str "digest"), (str "realm", []), (str "nonce", [])] ∧
    (setWwwAuthenticate (setCredentials (initAuthenticator (str "n")) (str "u") (str "p"))
        [c2Hdr] (str "f")).1 = .ok () ∧
    isOkE (getAuthorizationHeader md5model c2S (str "GET") (str "/") none).1 = true := by
  refine ⟨by decide, by decide, by decide⟩

/-- C2 amended: parsed digest challenges are installed by
`setWwwAuthenticate` with no validation of realm or nonce whatsoever —
whenever the parsed map holds a digest challenge, it is installed as is,
whatever its realm and nonce (empty or even absent). -/
theorem setWwwAuthenticate_installs_digest_unvalidated (a : HttpAuthenticator)
    (hdrs : List Str) (fresh : Str) (m : List (Str × Attrs)) (d : Attrs)
    (h1 : parseAll hdrs = .ok m) (h2 : getAttr m (str "digest") = some d) :
    setWwwAuthenticate a hdrs fresh =
      (.ok (), { a with nonceCount := 1, clientNonce := fresh, authInfo := some d }) := by
  simp [setWwwAuthenticate, h1, selectAuthInfo, h2]

/-- Witness for the amended C2 at the empty-realm, empty-nonce challenge. -/
theorem setWwwAuthenticate_installs_digest_unvalidated_witness :
    setWwwAuthenticate (initAuthenticator (str "n")) [c2Hdr] (str "f") =
      (.ok (),
        { nonceCount := 1,
          authInfo := some
            [(str "authType", str "digest"), (str "realm", []), (str "nonce", [])],
          username := none, password := none, clientNonce := str "f" }) :=
  setWwwAuthenticate_installs_digest_unvalidated _ _ _
    [(str "digest", [(str "authType", str "digest"), (str "realm", []), (str "nonce", [])])]
    _ (by decide) (by decide)

/-- C3: with a resolved qop of `auth` or `auth-int` (and the nonce and
client nonce that the code then requires), the response is the MD5 of
`HA1:nonce:nc:clientNonce:qop:HA2` where `nc` is the nonce count as
zero-padded 8-digit hex text in lowercase hex digits; with no resolved qop
the response is the MD5 of `HA1:nonce:HA2`, with no nonce count and no
client nonce in the hash. -/
theorem createDigestResponse_formula :
    (∀ (md5 : List Nat → Str) (info : Attrs) (u p meth uri cnonce : Str) (nc : Nat)
        (q : Str) (body : Option (List Nat)) (nonce : Str),
        (q = str "auth" ∨ q = str "auth-int") →
        getAttr info (str "nonce") = some nonce →
        createDigestResponse md5 info u p meth uri (some cnonce) nc (some q) body =
          .ok (md5str md5 (digestHA1 md5 info u p (some cnonce) ++ str ":" ++ nonce ++
            str ":" ++ toPaddedHexString nc 8 ++ str ":" ++ cnonce ++ str ":" ++ q ++
            str ":" ++ digestHA2 md5 meth uri (some q) (body.getD [])))) ∧
    (∀ (md5 : List Nat → Str) (info : Attrs) (u p meth uri : Str) (cnonce : Option Str)
        (nc : Nat) (body : Option (List Nat)) (nonce : Str),
        getAttr info (str "nonce") = some nonce →
        createDigestResponse md5 info u p meth uri cnonce nc none body =
          .ok (md5str md5 (digestHA1 md5 info u p cnonce ++ str ":" ++ nonce ++ str ":" ++
            digestHA2 md5 meth uri none (body.getD [])))) ∧
    (∀ (nc : Nat) (c : Char), c ∈ toPaddedHexString nc 8 → isLowerHexDigit c = true) := by
  refine ⟨?_, ?_, ?_⟩
  · intro md5 info u p meth uri cnonce nc q body nonce hq hnonce
    rcases hq with hq | hq <;> subst hq <;>
      simp [createDigestResponse, hnonce, jsStr]
  · intro md5 info u p meth uri cnonce nc body nonce hnonce
    simp [createDigestResponse, hnonce, jsStr]
  · intro nc c hc
    simp only [toPaddedHexString, List.mem_append, List.mem_replicate] at hc
    rcases hc with hc | hc
    · rw [hc.2]; decide
    · simp only [toString16, List.mem_reverse] at hc
      exact toHexRevFuel_lower _ _ _ hc

/-- Witness for C3 at a concrete challenge with qop `auth`. -/
theorem createDigestResponse_formula_witness :
    createDigestResponse md5model [(str "nonce", str "abc")] (str "u") (str "p") (str "GET")
        (str "/") (some (str "ccc")) 1 (some (str "auth")) none =
      .ok (md5str md5model (digestHA1 md5model [(str "nonce", str "abc")] (str "u") (str "p")
        (some (str "ccc")) ++ str ":" ++ str "abc" ++ str ":" ++ toPaddedHexString 1 8 ++
        str ":" ++ str "ccc" ++ str ":" ++ str "auth" ++ str ":" ++
        digestHA2 md5model (str "GET") (str "/") (some (str "auth")) [])) :=
  createDigestResponse_formula.1 md5model [(str "nonce", str "abc")] (str "u") (str "p")
    (str "GET") (str "/") (str "ccc") 1 (str "auth") none (str "abc") (Or.inl rfl) (by decide)

/-- The digest challenge of the C4 scenario, offering qop `auth`. -/
def c4Hdr : Str := str "Digest realm=\"r\", nonce=\"abc\", qop=\"auth\""

/-- Session state after credentials are set and the C4 challenge installed
with fresh client nonce `ccc`. -/
def c4S1 : HttpAuthenticator :=
  (setWwwAuthenticate (setCredentials (initAuthenticator (str "n0")) (str "u") (str "p"))
    [c4Hdr] (str "ccc")).2

/-- First header request of the C4 scenario. -/
def c4Res1 : Except AuthErr Str × HttpAuthenticator :=
  getAuthorizationHeader md5model c4S1 (str "GET") (str "/") none

/-- Second header request of the C4 scenario. -/
def c4Res2 : Except AuthErr Str × HttpAuthenticator :=
  getAuthorizationHeader md5model c4Res1.2 (str "GET") (str "/") none

/-- C4: installing a challenge always resets the nonce count to 1 and
replaces the client nonce with the freshly drawn one; `setCredentials`
leaves the counter alone; a digest header request increments the counter by
exactly 1; and in the concrete scenario the two headers produced after one
installation report `nc=00000001` and then `nc=00000002`. -/
theorem nonceCount_lifecycle :
    (∀ (a : HttpAuthenticator) (hdrs : List Str) (fresh : Str),
        (setWwwAuthenticate a hdrs fresh).2.nonceCount = 1 ∧
          (setWwwAuthenticate a hdrs fresh).2.clientNonce = fresh) ∧
    (∀ (a : HttpAuthenticator) (u p : Str), (setCredentials a u p).nonceCount = a.nonceCount) ∧
    (∀ (md5 : List Nat → Str) (a : HttpAuthenticator) (ai : Attrs) (meth uri : Str)
        (body : Option (List Nat)),
        a.authInfo = some ai →
        getAttr ai (str "authType") = some (str "digest") →
        (getAuthorizationHeader md5 a meth uri body).2.nonceCount = a.nonceCount + 1) ∧
    (containsStr (okStr c4Res1.1) (str "nc=00000001") = true ∧
      containsStr (okStr c4Res2.1) (str "nc=00000002") = true ∧
      c4S1.nonceCount = 1 ∧ c4Res1.2.nonceCount = 2 ∧ c4Res2.2.nonceCount = 3) := by
  refine ⟨?_, ?_, ?_, ?_⟩
  · intro a hdrs fresh
    cases hp : parseAll hdrs with
    | error e => simp [setWwwAuthenticate, hp]
    | ok m =>
      cases hs : selectAuthInfo m with
      | ok d => simp [setWwwAuthenticate, hp, hs]
      | error e => simp [setWwwAuthenticate, hp, hs]
  · intro a u p; rfl
  · intro md5 a ai meth uri body h1 h2
    simp [getAuthorizationHeader, h1, h2]
  · refine ⟨by decide, by decide, by decide, by decide, by decide⟩

/-- Witness for C4 at the concrete scenario state. -/
theorem nonceCount_lifecycle_witness :
    (getAuthorizationHeader md5model c4S1 (str "GET") (str "/") none).2.nonceCount =
      c4S1.nonceCount + 1 :=
  nonceCount_lifecycle.2.2.1 md5model c4S1
    [(str "authType", str "digest"), (str "realm", str "r"), (str "nonce", str "abc"),
      (str "qop", str "auth")]
    (str "GET") (str "/") none (by decide) (by decide)

/-- C5: scheme selection prefers the digest challenge, falls back to the
basic challenge, and otherwise fails listing every offered scheme name; a
header offering only NTLM fails listing exactly `ntlm`, and the error
message text spells out that list. -/
theorem selectAuthInfo_policy :
    (∀ (m : List (Str × Attrs)) (d : Attrs),
        getAttr m (str "digest") = some d → selectAuthInfo m = .ok d) ∧
    (∀ (m : List (Str × Attrs)) (b : Attrs),
        getAttr m (str "digest") = none → getAttr m (str "basic") = some b →
          selectAuthInfo m = .ok b) ∧
    (∀ m : List (Str × Attrs),
        getAttr m (str "digest") = none → getAttr m (str "basic") = none →
          selectAuthInfo m = .error (.noSupportedAuthTypes (m.map Prod.fst))) ∧
    ((setWwwAuthenticate (initAuthenticator (str "n0")) [str "NTLM realm=x"] (str "f")).1 =
        .error (.noSupportedAuthTypes [str "ntlm"]) ∧
      errMessage (.noSupportedAuthTypes [str "ntlm"]) =
        str "No supported authorization types in [\"ntlm\"]") := by
  refine ⟨?_, ?_, ?_, by decide, by decide⟩
  · intro m d h; simp [selectAuthInfo, h]
  · intro m b h1 h2; simp [selectAuthInfo, h1, h2]
  · intro m h1 h2; simp [selectAuthInfo, h1, h2]

/-- Witness for C5: a map holding both schemes selects the digest one. -/
theorem selectAuthInfo_policy_witness :
    selectAuthInfo
        [(str "basic", [(str "authType", str "basic")]),
          (str "digest", [(str "authType", str "digest")])] =
      .ok [(str "authType", str "digest")] :=
  selectAuthInfo_policy.1 _ _ (by decide)

/-- C6: `auth-int` is resolved whenever offered (so it wins over `auth`); a
qop list offering neither supported token makes resolution throw the
unsupported-qop error; an absent qop attribute resolves to null qop, and the
header computation then runs the legacy branch, whose produced header
carries no qop, nonce-count or cnonce fields. -/
theorem resolveQop_policy :
    (∀ q : Str, str "auth-int" ∈ splitOn ',' q →
        resolveQop (some q) = .ok (some (str "auth-int"))) ∧
    (∀ q : Str, str "auth-int" ∉ splitOn ',' q → str "auth" ∉ splitOn ',' q →
        resolveQop (some q) = .error (.noSupportedQop (splitOn ',' q))) ∧
    resolveQop none = .ok none ∧
    (∀ (md5 : List Nat → Str) (info : Attrs) (u p meth uri : Str) (cn : Option Str)
        (nc : Nat) (body : Option (List Nat)),
        getAttr info (str "qop") = none →
        createDigestAuthenticationString md5 info u p meth uri cn nc body =
          (createDigestResponse md5 info u p meth uri cn nc none body).map
            (fun resp => digestHeaderBase info u uri resp ++ opqSuffix info)) := by
  refine ⟨?_, ?_, by decide, ?_⟩
  · intro q h; simp [resolveQop, h]
  · intro q h1 h2
    have h3 : (splitOn ',' q).length ≠ 0 := by
      simpa [List.length_eq_zero] using splitOn_ne_nil ',' q
    simp [resolveQop, h1, h2, h3]
  · intro md5 info u p meth uri cn nc body h
    have hq : resolveQop (getAttr info (str "qop")) = .ok none := by rw [h]; decide
    simp only [createDigestAuthenticationString, hq]
    cases hr : createDigestResponse md5 info u p meth uri cn nc none body with
    | error e => simp [Except.map]
    | ok resp => simp [Except.map, qopSuffix]

/-- Witness for C6 at concrete qop lists. -/
theorem resolveQop_policy_witness :
    resolveQop (some (str "auth,auth-int")) = .ok (some (str "auth-int")) ∧
    resolveQop (some (str "bogus")) = .error (.noSupportedQop (splitOn ',' (str "bogus"))) ∧
    createDigestAuthenticationString md5model [(str "nonce", str "abc")] (str "u") (str "p")
        (str "GET") (str "/") (some (str "c")) 1 none =
      (createDigestResponse md5model [(str "nonce", str "abc")] (str "u") (str "p")
          (str "GET") (str "/") (some (str "c")) 1 none none).map
        (fun resp => digestHeaderBase [(str "nonce", str "abc")] (str "u") (str "/") resp ++
          opqSuffix [(str "nonce", str "abc")]) :=
  ⟨resolveQop_policy.1 _ (by decide),
    resolveQop_policy.2.1 (str "bogus") (by decide) (by decide),
    resolveQop_policy.2.2.2 md5model [(str "nonce", str "abc")] (str "u") (str "p")
      (str "GET") (str "/") (some (str "c")) 1 none (by decide)⟩

/-- C9: when the freshly supplied header values offer no supported scheme,
`setWwwAuthenticate` throws — but only after the nonce count has been reset
to 1 and the client nonce replaced by the freshly drawn value, and with the
previously installed challenge still in place: the failed call observably
mutates the session. -/
theorem setWwwAuthenticate_not_atomic_on_error (a : HttpAuthenticator)
    (hdrs : List Str) (fresh : Str) (m : List (Str × Attrs))
    (h1 : parseAll hdrs = .ok m)
    (h2 : getAttr m (str "digest") = none) (h3 : getAttr m (str "basic") = none) :
    setWwwAuthenticate a hdrs fresh =
      (.error (.noSupportedAuthTypes (m.map Prod.fst)),
        { a with nonceCount := 1, clientNonce := fresh }) := by
  simp [setWwwAuthenticate, h1, selectAuthInfo, h2, h3]

/-- A session with an active digest challenge, a counter past 1 and an old
client nonce, about to receive an NTLM-only challenge. -/
def c9Prior : HttpAuthenticator :=
  { nonceCount := 7, authInfo := some [(str "authType", str "digest")],
    username := some (str "u"), password := some (str "p"), clientNonce := str "old" }

/-- Witness for C9: the NTLM-only header makes the call fail while the
session keeps the previous digest challenge but has its nonce count reset
and its client nonce regenerated. -/
theorem setWwwAuthenticate_not_atomic_on_error_witness :
    setWwwAuthenticate c9Prior [str "NTLM realm=x"] (str "f") =
      (.error (.noSupportedAuthTypes [str "ntlm"]),
        { nonceCount := 1, authInfo := some [(str "authType", str "digest")],
          username := some (str "u"), password := some (str "p"),
          clientNonce := str "f" }) :=
  setWwwAuthenticate_not_atomic_on_error c9Prior _ _
    [(str "ntlm", [(str "authType", str "ntlm"), (str "realm", str "x")])]
    (by decide) (by decide) (by decide)

/-- C10: whenever the parse loop reaches a key whose value starts with a
double quote while the remaining input holds no further double quote, the
regular-expression match is null and the loop fails with the `TypeError`
of reading `matches.length` — not with the parse error that carries the
offending original string; concretely so for the header
`Digest realm="abc` (an unterminated quoted value). -/
theorem parse_unterminated_quote_typeerror :
    (∀ (original s : Str) (acc : Attrs) (fuel eq : Nat),
        schemeSplit s = none →
        indexOfChar s '=' = some eq →
        (s.drop (eq + 1)).head? = some '"' →
        '"' ∉ s.drop (eq + 2) →
        parseLoop original (fuel + 1) s acc = .error .typeErrorNullMatch) ∧
    parseWwwAuthenticateHeader (str "Digest realm=\"abc") = .error .typeErrorNullMatch ∧
    (∀ orig : Str, ParseErr.typeErrorNullMatch ≠ ParseErr.parseError orig) := by
  refine ⟨?_, by decide, fun orig h => ParseErr.noConfusion h⟩
  intro original s acc fuel eq hscheme heq hhead hnotin
  cases s with
  | nil => simp [indexOfChar] at heq
  | cons c0 cs0 =>
    obtain ⟨rest', hrest⟩ : ∃ t, (c0 :: cs0).drop (eq + 1) = '"' :: t := by
      cases hd : (c0 :: cs0).drop (eq + 1) with
      | nil => rw [hd] at hhead; simp at hhead
      | cons x t =>
        rw [hd] at hhead
        simp only [List.head?_cons, Option.some.injEq] at hhead
        exact ⟨t, by rw [hhead]⟩
    have hrest' : rest' = (c0 :: cs0).drop (eq + 2) := by
      have : ((c0 :: cs0).drop (eq + 1)).drop 1 = (c0 :: cs0).drop (eq + 2) := by
        rw [List.drop_drop]
      rw [hrest] at this
      simpa using this
    have hnone : indexOfChar rest' '"' = none := by
      rw [hrest']
      exact indexOfChar_eq_none _ _ hnotin
    simp only [parseLoop, hscheme, heq, hrest, jsMatchQuoted, hnone]

/-- Witness for C10 at the loop state reached inside `Digest realm="abc`
after the scheme token is consumed. -/
theorem parse_unterminated_quote_typeerror_witness :
    parseLoop (str "x") 11 (str "realm=\"abc") [] = .error .typeErrorNullMatch :=
  parse_unterminated_quote_typeerror.1 (str "x") (str "realm=\"abc") [] 10 5
    (by decide) (by decide) (by decide) (by decide)
